import Mathlib

/-!
Verification development for the Partisia liquidity-swap-lock contract and its
defi-common support library.  The definitions below are a shallow embedding of
the Rust source: u128 quantities become natural numbers with explicit bound
checks (Rust integer overflow and division by zero abort the operation, which
the embedding models by returning none), i128 deltas become integers with
explicit range checks, the AvlTreeMap becomes a duplicate-free association
list, and every fallible contract operation returns an Option.
-/

namespace PartisiaSwap

/-- Maximum value of the Rust u128 type (all token amounts are u128). -/
def U128MAX : Nat := 2 ^ 128 - 1

/-- Maximum value of the Rust u64 type. -/
def U64MAX : Nat := 2 ^ 64 - 1

/-- Maximum value of the Rust i128 type. -/
def I128MAX : Int := 2 ^ 127 - 1

/-- Minimum value of the Rust i128 type. -/
def I128MIN : Int := -(2 ^ 127)

/-- u128 addition; aborts (overflow) when the mathematical sum exceeds u128::MAX. -/
def addU128 (a b : Nat) : Option Nat :=
  if a + b ≤ U128MAX then some (a + b) else none

/-- u128 multiplication; aborts (overflow) when the product exceeds u128::MAX. -/
def mulU128 (a b : Nat) : Option Nat :=
  if a * b ≤ U128MAX then some (a * b) else none

/-- u128 checked subtraction (Rust checked_sub): none when b > a. -/
def subU128 (a b : Nat) : Option Nat :=
  if b ≤ a then some (a - b) else none

/-- u128 division; aborts when the divisor is zero, otherwise floor division. -/
def divU128 (a b : Nat) : Option Nat :=
  if b = 0 then none else some (a / b)

/-- i128 addition with overflow abort. -/
def addI128 (a b : Int) : Option Int :=
  if I128MIN ≤ a + b ∧ a + b ≤ I128MAX then some (a + b) else none

/-- i128 subtraction with overflow abort. -/
def subI128 (a b : Int) : Option Int :=
  if I128MIN ≤ a - b ∧ a - b ≤ I128MAX then some (a - b) else none

/-- The Rust cast `x as i128` applied to a u128 value (two's-complement wrap). -/
def u128AsI128 (x : Nat) : Int :=
  if x < 2 ^ 127 then (x : Int) else (x : Int) - 2 ^ 128

/-- u128::checked_add_signed: add an i128 delta to a u128, abort when the exact
result is negative or exceeds u128::MAX. -/
def checkedAddSigned (a : Nat) (d : Int) : Option Nat :=
  if 0 ≤ (a : Int) + d ∧ (a : Int) + d ≤ (U128MAX : Int) then some ((a : Int) + d).toNat
  else none

/-! ### Association-list model of AvlTreeMap -/

/-- Finite map represented as a duplicate-free association list; models the
contract's AvlTreeMap (only lookup, insert, remove and is_empty are used). -/
abbrev Fmap (α β : Type) : Type := List (α × β)

namespace Fmap

/-- True when the map holds no binding. -/
def isEmpty {α β : Type} : Fmap α β → Bool
  | [] => true
  | _ :: _ => false

theorem isEmpty_eq_true_iff {α β : Type} (m : Fmap α β) :
    m.isEmpty = true ↔ m = ([] : Fmap α β) := by
  cases m <;> simp [isEmpty]

variable {α β : Type} [DecidableEq α]

/-- The empty map. -/
def empty : Fmap α β := []

/-- Value stored at key k, if any. -/
def lookup : Fmap α β → α → Option β
  | [], _ => none
  | p :: m, k => if p.1 = k then some p.2 else lookup m k

/-- Remove the binding for key k. -/
def erase : Fmap α β → α → Fmap α β
  | [], _ => []
  | p :: m, k => if p.1 = k then erase m k else p :: erase m k

/-- Insert or replace the binding for key k. -/
def insert (m : Fmap α β) (k : α) (v : β) : Fmap α β :=
  (k, v) :: erase m k

theorem lookup_erase (m : Fmap α β) (k k' : α) :
    (m.erase k).lookup k' = if k' = k then none else m.lookup k' := by
  induction m with
  | nil => simp [erase, lookup]
  | cons p m ih =>
    by_cases hp : p.1 = k
    · by_cases hk : k' = k
      · subst hk
        simp [erase, lookup, hp, ih]
      · have hkk' : ¬ k = k' := fun h => hk h.symm
        simp [erase, lookup, hp, hk, hkk', ih]
    · by_cases hpk' : p.1 = k'
      · have hk : ¬ k' = k := fun h => hp (h ▸ hpk')
        simp [erase, lookup, hp, hpk', hk]
      · simp [erase, lookup, hp, hpk', ih]

theorem lookup_insert (m : Fmap α β) (k k' : α) (v : β) :
    (m.insert k v).lookup k' = if k' = k then some v else m.lookup k' := by
  by_cases hk : k' = k
  · simp [insert, lookup, hk]
  · have : ¬ k = k' := fun h => hk h.symm
    simp [insert, lookup, this, hk, lookup_erase]

theorem lookup_insert_self (m : Fmap α β) (k : α) (v : β) :
    (m.insert k v).lookup k = some v := by
  simp [lookup_insert]

theorem erase_eq_self_of_lookup_none (m : Fmap α β) (k : α)
    (h : m.lookup k = none) : m.erase k = m := by
  induction m with
  | nil => rfl
  | cons p m ih =>
    by_cases hp : p.1 = k
    · simp [lookup, hp] at h
    · simp only [lookup, hp, if_neg, if_false] at h
      simp [erase, hp, ih h]

theorem isEmpty_insert (m : Fmap α β) (k : α) (v : β) :
    (m.insert k v).isEmpty = false := by
  simp [insert, isEmpty]

end Fmap

/-! ### Token ledger (defi-common/src/token_balances.rs) -/

/-- Identities (user accounts, the pool contract, the external token contracts)
are opaque values compared only by equality; modelled as naturals. -/
abbrev Address := Nat

/-- The three token kinds tracked by the ledger. -/
inductive Token
  | TokenA
  | TokenB
  | LiquidityToken
deriving DecidableEq

/-- Token::A -/
def Token.A : Token := Token.TokenA

/-- Token::B -/
def Token.B : Token := Token.TokenB

/-- Token::LIQUIDITY -/
def Token.LIQUIDITY : Token := Token.LiquidityToken

/-- Per-holder balance triple. -/
structure TokenBalance where
  a_tokens : Nat
  b_tokens : Nat
  liquidity_tokens : Nat
deriving DecidableEq

/-- TokenBalance::get_amount_of (dispatch by equality, LIQUIDITY first, as in
the source). -/
def TokenBalance.get_amount_of (b : TokenBalance) (t : Token) : Nat :=
  if t = Token.LIQUIDITY then b.liquidity_tokens
  else if t = Token.A then b.a_tokens
  else b.b_tokens

/-- Writing through TokenBalance::get_mut_amount_of. -/
def TokenBalance.set_amount_of (b : TokenBalance) (t : Token) (v : Nat) : TokenBalance :=
  if t = Token.LIQUIDITY then { b with liquidity_tokens := v }
  else if t = Token.A then { b with a_tokens := v }
  else { b with b_tokens := v }

/-- TokenBalance::user_has_no_tokens. -/
def TokenBalance.user_has_no_tokens (b : TokenBalance) : Bool :=
  b.a_tokens == 0 && b.b_tokens == 0 && b.liquidity_tokens == 0

/-- The all-zero balance EMPTY_BALANCE. -/
def EMPTY_BALANCE : TokenBalance := ⟨0, 0, 0⟩

/-- In/out role assignment for the two reserve tokens. -/
structure TokensInOut where
  token_in : Token
  token_out : Token
deriving DecidableEq

/-- TokensInOut::A_IN_B_OUT -/
def TokensInOut.A_IN_B_OUT : TokensInOut := ⟨Token.A, Token.B⟩

/-- TokensInOut::B_IN_A_OUT -/
def TokensInOut.B_IN_A_OUT : TokensInOut := ⟨Token.B, Token.A⟩

/-- The ledger: the three configured addresses plus the balances map. -/
structure TokenBalances where
  token_lp_address : Address
  token_a_address : Address
  token_b_address : Address
  balances : Fmap Address TokenBalance

/-- TokenBalances::get_balance_for (defaults to the empty balance). -/
def TokenBalances.get_balance_for (tb : TokenBalances) (user : Address) : TokenBalance :=
  (tb.balances.lookup user).getD EMPTY_BALANCE

/-- TokenBalances::add_to_token_balance; the += aborts on u128 overflow;
always (re)inserts the entry. -/
def TokenBalances.add_to_token_balance (tb : TokenBalances) (user : Address)
    (token : Token) (amount : Nat) : Option TokenBalances := do
  let token_balance := tb.get_balance_for user
  let v ← addU128 (token_balance.get_amount_of token) amount
  some { tb with balances := tb.balances.insert user (token_balance.set_amount_of token v) }

/-- TokenBalances::deduct_from_token_balance; checked_sub aborts when the
holder owns less than the deducted amount; removes the entry when the
resulting balance is all-zero. -/
def TokenBalances.deduct_from_token_balance (tb : TokenBalances) (user : Address)
    (token : Token) (amount : Nat) : Option TokenBalances := do
  let user_balances := tb.get_balance_for user
  let token_balance := user_balances.get_amount_of token
  let v ← subU128 token_balance amount
  let user_balances' := user_balances.set_amount_of token v
  if user_balances'.user_has_no_tokens then
    some { tb with balances := tb.balances.erase user }
  else
    some { tb with balances := tb.balances.insert user user_balances' }

/-- TokenBalances::move_tokens: deduct from the sender then credit to the
receiver. -/
def TokenBalances.move_tokens (tb : TokenBalances) (fromAddr toAddr : Address)
    (moved_token : Token) (amount : Nat) : Option TokenBalances := do
  let tb1 ← tb.deduct_from_token_balance fromAddr moved_token amount
  tb1.add_to_token_balance toAddr moved_token amount

/-- TokenBalances::deduce_tokens_in_out_b. -/
def TokenBalances.deduce_tokens_in_out_b (_tb : TokenBalances) (token_in_a : Bool) :
    TokensInOut :=
  if token_in_a then TokensInOut.A_IN_B_OUT else TokensInOut.B_IN_A_OUT

/-- TokenBalances::deduce_tokens_in_out; aborts on an address matching neither
reserve token. -/
def TokenBalances.deduce_tokens_in_out (tb : TokenBalances)
    (token_in_token_address : Address) : Option TokensInOut :=
  let token_in_a : Bool := tb.token_a_address == token_in_token_address
  let token_in_b : Bool := tb.token_b_address == token_in_token_address
  if !token_in_a && !token_in_b then none
  else some (tb.deduce_tokens_in_out_b token_in_a)

/-! ### Pricing math (defi-common/src/math.rs and liquidity_util.rs) -/

/-- One step bound of the binary search: the loop runs while low != high - 1;
middle = (low + high) / 2; descend right when middle * middle is a valid u128
value not exceeding the input (checked_mul pattern), else left.  The source
loop terminates because the interval shrinks; the embedding makes this
explicit through a fuel argument that the correctness proof shows is never
exhausted for the actual initial interval. -/
def u128_sqrt_loop (input : Nat) : Nat → Nat → Nat → Nat
  | 0, low, _ => low
  | fuel + 1, low, high =>
    if low = high - 1 then low
    else
      let middle := (low + high) / 2
      if middle * middle ≤ U128MAX ∧ middle * middle ≤ input then
        u128_sqrt_loop input fuel middle high
      else
        u128_sqrt_loop input fuel low middle

/-- u128_sqrt: binary search between 0 and 2 << 64 for the rounded-down square
root; the final try_into to u64 always succeeds for u128 inputs (proved in the
claim theorem), so it is the identity here. -/
def u128_sqrt (input : Nat) : Nat :=
  u128_sqrt_loop input 130 0 (2 <<< 64)

/-- calculate_swap_to_amount: the constant-product quote
(1000 - fee) * amount_in * reserve_out / (1000 * reserve_in + (1000 - fee) * amount_in)
in plain u128 arithmetic: the products and the sum abort on overflow and the
division aborts on a zero divisor. -/
def calculate_swap_to_amount (pool_token_in pool_token_out swap_amount_in : Nat)
    (swap_fee_per_mille : Nat) : Option Nat := do
  let remainder_rate := 1000 - swap_fee_per_mille
  let t1 ← mulU128 remainder_rate swap_amount_in
  let numerator ← mulU128 t1 pool_token_out
  let t2 ← mulU128 1000 pool_token_in
  let denominator ← addU128 t2 t1
  divU128 numerator denominator

/-- calculate_equivalent_and_minted_tokens: the equivalent output is
floor(in * out_pool / in_pool) + 1 for a positive input and 0 otherwise; the
minted share count floor(in * total / in_pool) is computed unconditionally
(also in the zero case), so a zero in_pool always aborts on division. -/
def calculate_equivalent_and_minted_tokens (token_in_amount token_in_pool
    token_out_pool total_minted_liquidity : Nat) : Option (Nat × Nat) := do
  let token_out_equivalent ←
    if token_in_amount > 0 then do
      let p ← mulU128 token_in_amount token_out_pool
      let q ← divU128 p token_in_pool
      addU128 q 1
    else
      some 0
  let m ← mulU128 token_in_amount total_minted_liquidity
  let minted_liquidity_tokens ← divU128 m token_in_pool
  some (token_out_equivalent, minted_liquidity_tokens)

/-- calculate_reclaim_output: both reserves scaled by burned/total, floored
independently; division by a zero total supply aborts. -/
def calculate_reclaim_output (liquidity_token_amount pool_a pool_b
    minted_liquidity : Nat) : Option (Nat × Nat) := do
  let pa ← mulU128 pool_a liquidity_token_amount
  let a_output ← divU128 pa minted_liquidity
  let pb ← mulU128 pool_b liquidity_token_amount
  let b_output ← divU128 pb minted_liquidity
  some (a_output, b_output)

/-- initial_liquidity_tokens: sqrt(amount_a * amount_b); the u128 product can
overflow and then aborts. -/
def initial_liquidity_tokens (token_a_amount token_b_amount : Nat) : Option Nat := do
  let p ← mulU128 token_a_amount token_b_amount
  some (u128_sqrt p)

/-! ### Virtual lock state (liquidity-swap-lock/src/lib.rs) -/

/-- A stored lock. -/
structure LiquidityLock where
  amount_in : Nat
  amount_out : Nat
  tokens_in_out : TokensInOut
  owner : Address
deriving DecidableEq

/-- Net i128 adjustment that outstanding locks impose on the two reserves. -/
structure LockLiquidity where
  a_tokens : Int
  b_tokens : Int
deriving DecidableEq

/-- LockLiquidity::get_mut_amount_of reads: token A selects the A delta,
everything else the B delta (the source dispatches by equality with A). -/
def LockLiquidity.get_amount_of (ll : LockLiquidity) (t : Token) : Int :=
  if t = Token.A then ll.a_tokens else ll.b_tokens

/-- Writing through LockLiquidity::get_mut_amount_of. -/
def LockLiquidity.set_amount_of (ll : LockLiquidity) (t : Token) (v : Int) : LockLiquidity :=
  if t = Token.A then { ll with a_tokens := v } else { ll with b_tokens := v }

/-- The virtual state: monotonically allocated next lock id (a u128 raw id),
the lock table, and the running lock adjustment. -/
structure VirtualState where
  next_lock_id : Nat
  locks : Fmap Nat LiquidityLock
  lock_liquidity : LockLiquidity

/-- VirtualState::new. -/
def VirtualState.new : VirtualState :=
  { next_lock_id := 0, locks := Fmap.empty, lock_liquidity := ⟨0, 0⟩ }

/-- VirtualState::add_lock: allocate the next id (the increment is a plain
u128 addition, aborting at the numeric limit), apply
delta[token_in] += amount_in and delta[token_out] -= amount_out with the u128
amounts cast to i128, and store the lock under the id. -/
def VirtualState.add_lock (vs : VirtualState) (lock : LiquidityLock) :
    Option (VirtualState × Nat) := do
  let lock_id := vs.next_lock_id
  let next ← addU128 vs.next_lock_id 1
  let d_in ← addI128 (vs.lock_liquidity.get_amount_of lock.tokens_in_out.token_in)
    (u128AsI128 lock.amount_in)
  let ll1 := vs.lock_liquidity.set_amount_of lock.tokens_in_out.token_in d_in
  let d_out ← subI128 (ll1.get_amount_of lock.tokens_in_out.token_out)
    (u128AsI128 lock.amount_out)
  let ll2 := ll1.set_amount_of lock.tokens_in_out.token_out d_out
  some ({ next_lock_id := next, locks := vs.locks.insert lock_id lock,
          lock_liquidity := ll2 }, lock_id)

/-- VirtualState::remove_lock: aborts on an unknown id or a sender different
from the lock owner; otherwise removes the lock and reverses the deltas
applied at acquisition. -/
def VirtualState.remove_lock (vs : VirtualState) (lock_id : Nat) (sender : Address) :
    Option (VirtualState × LiquidityLock) := do
  let lock ← vs.locks.lookup lock_id
  if sender = lock.owner then do
    let locks' := vs.locks.erase lock_id
    let d_in ← subI128 (vs.lock_liquidity.get_amount_of lock.tokens_in_out.token_in)
      (u128AsI128 lock.amount_in)
    let ll1 := vs.lock_liquidity.set_amount_of lock.tokens_in_out.token_in d_in
    let d_out ← addI128 (ll1.get_amount_of lock.tokens_in_out.token_out)
      (u128AsI128 lock.amount_out)
    let ll2 := ll1.set_amount_of lock.tokens_in_out.token_out d_out
    some ({ vs with locks := locks', lock_liquidity := ll2 }, lock)
  else none

/-- VirtualState::virtual_liquidity_pools: actual + delta with
checked_add_signed, fatal (abort) on a negative or overflowing result. -/
def VirtualState.virtual_liquidity_pools (vs : VirtualState) (actual_a actual_b : Nat) :
    Option TokenBalance := do
  let a ← checkedAddSigned actual_a vs.lock_liquidity.a_tokens
  let b ← checkedAddSigned actual_b vs.lock_liquidity.b_tokens
  some ⟨a, b, 0⟩

/-- VirtualState::any_locked_liquidity: despite the name, true exactly when
the lock table is EMPTY (the source returns locks.is_empty()). -/
def VirtualState.any_locked_liquidity (vs : VirtualState) : Bool :=
  vs.locks.isEmpty

/-! ### Permission gate (defi-common/src/permission.rs) -/

/-- Permission policy for lock acquisition. -/
inductive Permission
  | Anybody
  | Specific (addresses : List Address)
deriving DecidableEq

/-- Permission::does_address_have_permission. -/
def Permission.does_address_have_permission (p : Permission) (addr : Address) : Bool :=
  match p with
  | .Anybody => true
  | .Specific addresses => addresses.contains addr

/-! ### Contract state and operations (liquidity-swap-lock/src/lib.rs) -/

/-- The persisted contract state. -/
structure LiquiditySwapContractState where
  permission_lock_swap : Permission
  liquidity_pool_address : Address
  swap_fee_per_mille : Nat
  token_balances : TokenBalances
  virtual_state : VirtualState

/-- LiquiditySwapContractState::contract_pools_have_liquidity: both of the
pool holder's reserve balances non-zero. -/
def LiquiditySwapContractState.contract_pools_have_liquidity
    (s : LiquiditySwapContractState) : Bool :=
  let contract_token_balance := s.token_balances.get_balance_for s.liquidity_pool_address
  contract_token_balance.a_tokens != 0 && contract_token_balance.b_tokens != 0

/-- calculate_minimum_swap_to_amount: quotes the swap once against the actual
reserves and once against the virtual reserves and takes the minimum. -/
def calculate_minimum_swap_to_amount (s : LiquiditySwapContractState)
    (amount_in : Nat) (tokens_in_out : TokensInOut) : Option Nat := do
  let actual_balance := s.token_balances.get_balance_for s.liquidity_pool_address
  let actual_a := actual_balance.get_amount_of Token.A
  let actual_b := actual_balance.get_amount_of Token.B
  let virtual_balance ← s.virtual_state.virtual_liquidity_pools actual_a actual_b
  let non_locked_rate ← calculate_swap_to_amount
    (actual_balance.get_amount_of tokens_in_out.token_in)
    (actual_balance.get_amount_of tokens_in_out.token_out)
    amount_in s.swap_fee_per_mille
  let locked_rate ← calculate_swap_to_amount
    (virtual_balance.get_amount_of tokens_in_out.token_in)
    (virtual_balance.get_amount_of tokens_in_out.token_out)
    amount_in s.swap_fee_per_mille
  some (Nat.min non_locked_rate locked_rate)

/-- lock_internal: resolve the token pair, quote via
calculate_minimum_swap_to_amount, abort when below the requested minimum,
store the lock.  Returns the updated state, the lock id and the quoted
output. -/
def lock_internal (s : LiquiditySwapContractState) (amount_in : Nat)
    (token_in : Address) (amount_out_minimum : Nat) (owner : Address) :
    Option (LiquiditySwapContractState × Nat × Nat) := do
  let tokens ← s.token_balances.deduce_tokens_in_out token_in
  let amount_out ← calculate_minimum_swap_to_amount s amount_in tokens
  if amount_out < amount_out_minimum then none
  else do
    let tokens_in_out ← s.token_balances.deduce_tokens_in_out token_in
    let lock : LiquidityLock :=
      { amount_in := amount_in, amount_out := amount_out,
        tokens_in_out := tokens_in_out, owner := owner }
    let (vs', lock_id) ← s.virtual_state.add_lock lock
    some ({ s with virtual_state := vs' }, lock_id, amount_out)

/-- execute_lock_swap_internal: release the lock (owner check included) and
settle it on the real ledger: amount_in from the owner to the pool, then
amount_out from the pool to the owner. -/
def execute_lock_swap_internal (s : LiquiditySwapContractState) (lock_id : Nat)
    (sender : Address) : Option (LiquiditySwapContractState × Nat) := do
  let (vs', lock) ← s.virtual_state.remove_lock lock_id sender
  let s1 := { s with virtual_state := vs' }
  let tb1 ← s1.token_balances.move_tokens lock.owner s.liquidity_pool_address
    lock.tokens_in_out.token_in lock.amount_in
  let tb2 ← tb1.move_tokens s.liquidity_pool_address lock.owner
    lock.tokens_in_out.token_out lock.amount_out
  some ({ s1 with token_balances := tb2 }, lock.amount_out)

/-- instant_swap: requires liquidity in both pools, then acquires a lock
internally and executes it immediately. -/
def instant_swap (sender : Address) (s : LiquiditySwapContractState)
    (token_in : Address) (amount_in amount_out_minimum : Nat) :
    Option LiquiditySwapContractState := do
  if s.contract_pools_have_liquidity then do
    let (s1, lock_id, _) ← lock_internal s amount_in token_in amount_out_minimum sender
    let (s2, _) ← execute_lock_swap_internal s1 lock_id sender
    some s2
  else none

/-- acquire_swap_lock: permission gate, liquidity guard, then lock_internal;
returns the state together with the lock id and guaranteed output. -/
def acquire_swap_lock (sender : Address) (s : LiquiditySwapContractState)
    (token_in : Address) (amount_in amount_out_minimum : Nat) :
    Option (LiquiditySwapContractState × Nat × Nat) := do
  if s.permission_lock_swap.does_address_have_permission sender then
    if s.contract_pools_have_liquidity then
      lock_internal s amount_in token_in amount_out_minimum sender
    else none
  else none

/-- execute_lock_swap: the public entry point around
execute_lock_swap_internal. -/
def execute_lock_swap (sender : Address) (s : LiquiditySwapContractState)
    (lock_id : Nat) : Option (LiquiditySwapContractState × Nat) :=
  execute_lock_swap_internal s lock_id sender

/-- cancel_lock: releases the lock (owner check) with no ledger movement. -/
def cancel_lock (sender : Address) (s : LiquiditySwapContractState)
    (lock_id : Nat) : Option LiquiditySwapContractState := do
  let (vs', _) ← s.virtual_state.remove_lock lock_id sender
  some { s with virtual_state := vs' }

/-- provide_liquidity_internal: move the deposit and the equivalent output
from the provider to the pool, then credit the minted shares to the provider
and to the pool's running total-supply counter. -/
def provide_liquidity_internal (s : LiquiditySwapContractState) (user : Address)
    (tokens : TokensInOut) (token_in_amount token_out_amount
    minted_liquidity_tokens : Nat) : Option LiquiditySwapContractState := do
  let tb1 ← s.token_balances.move_tokens user s.liquidity_pool_address
    tokens.token_in token_in_amount
  let tb2 ← tb1.move_tokens user s.liquidity_pool_address
    tokens.token_out token_out_amount
  let tb3 ← tb2.add_to_token_balance user Token.LIQUIDITY minted_liquidity_tokens
  let tb4 ← tb3.add_to_token_balance s.liquidity_pool_address Token.LIQUIDITY
    minted_liquidity_tokens
  some { s with token_balances := tb4 }

/-- provide_liquidity: price the deposit against the actual reserves, reject a
zero mint, then settle through provide_liquidity_internal. -/
def provide_liquidity (sender : Address) (s : LiquiditySwapContractState)
    (token_address : Address) (amount : Nat) : Option LiquiditySwapContractState := do
  let tokens ← s.token_balances.deduce_tokens_in_out token_address
  let contract_token_balance := s.token_balances.get_balance_for s.liquidity_pool_address
  let (token_out_equivalent, minted_liquidity_tokens) ←
    calculate_equivalent_and_minted_tokens amount
      (contract_token_balance.get_amount_of tokens.token_in)
      (contract_token_balance.get_amount_of tokens.token_out)
      contract_token_balance.liquidity_tokens
  if minted_liquidity_tokens > 0 then
    provide_liquidity_internal s sender tokens amount token_out_equivalent
      minted_liquidity_tokens
  else none

/-- provide_initial_liquidity: the guard rejects the call when
contract_pools_have_liquidity holds, i.e. when BOTH reserves are non-zero;
then mints sqrt(amount_a * amount_b) shares (rejecting zero) and settles with
an explicit A-in/B-out pairing. -/
def provide_initial_liquidity (sender : Address) (s : LiquiditySwapContractState)
    (token_a_amount token_b_amount : Nat) : Option LiquiditySwapContractState := do
  if s.contract_pools_have_liquidity then none
  else do
    let minted_liquidity_tokens ← initial_liquidity_tokens token_a_amount token_b_amount
    if minted_liquidity_tokens > 0 then
      provide_liquidity_internal s sender TokensInOut.A_IN_B_OUT token_a_amount
        token_b_amount minted_liquidity_tokens
    else none

/-- The body of reclaim_liquidity after its outstanding-locks guard: burn the
caller's shares, compute both outputs against the pool balance read after the
burn, move both reserve amounts to the caller and shrink the pool's supply
counter. -/
def reclaim_liquidity_after_guard (sender : Address) (s : LiquiditySwapContractState)
    (liquidity_token_amount : Nat) : Option LiquiditySwapContractState := do
  let tb1 ← s.token_balances.deduct_from_token_balance sender Token.LIQUIDITY
    liquidity_token_amount
  let contract_token_balance := tb1.get_balance_for s.liquidity_pool_address
  let (a_output, b_output) ← calculate_reclaim_output liquidity_token_amount
    contract_token_balance.a_tokens contract_token_balance.b_tokens
    contract_token_balance.liquidity_tokens
  let tb2 ← tb1.move_tokens s.liquidity_pool_address sender Token.A a_output
  let tb3 ← tb2.move_tokens s.liquidity_pool_address sender Token.B b_output
  let tb4 ← tb3.deduct_from_token_balance s.liquidity_pool_address Token.LIQUIDITY
    liquidity_token_amount
  some { s with token_balances := tb4 }

/-- reclaim_liquidity: the guard asserts any_locked_liquidity, which (because
of its inverted naming) is true exactly when NO locks are outstanding; the
call aborts when some lock exists and otherwise proceeds with the body. -/
def reclaim_liquidity (sender : Address) (s : LiquiditySwapContractState)
    (liquidity_token_amount : Nat) : Option LiquiditySwapContractState :=
  if s.virtual_state.any_locked_liquidity then
    reclaim_liquidity_after_guard sender s liquidity_token_amount
  else none

/-! ### Basic facts about the checked arithmetic -/

/-- x is a representable i128 value. -/
def inI128 (x : Int) : Prop := I128MIN ≤ x ∧ x ≤ I128MAX

theorem addU128_eq_some {a b c : Nat} :
    addU128 a b = some c ↔ a + b ≤ U128MAX ∧ c = a + b := by
  unfold addU128
  split <;> simp_all [eq_comm]

theorem mulU128_eq_some {a b c : Nat} :
    mulU128 a b = some c ↔ a * b ≤ U128MAX ∧ c = a * b := by
  unfold mulU128
  split <;> simp_all [eq_comm]

theorem subU128_eq_some {a b c : Nat} :
    subU128 a b = some c ↔ b ≤ a ∧ c = a - b := by
  unfold subU128
  split <;> simp_all [eq_comm]

theorem divU128_eq_some {a b c : Nat} :
    divU128 a b = some c ↔ b ≠ 0 ∧ c = a / b := by
  unfold divU128
  split <;> simp_all [eq_comm]

theorem addI128_eq_some {a b c : Int} :
    addI128 a b = some c ↔ inI128 (a + b) ∧ c = a + b := by
  unfold addI128 inI128
  split <;> simp_all [eq_comm]

theorem subI128_eq_some {a b c : Int} :
    subI128 a b = some c ↔ inI128 (a - b) ∧ c = a - b := by
  unfold subI128 inI128
  split <;> simp_all [eq_comm]

theorem checkedAddSigned_eq_some {a : Nat} {d : Int} {c : Nat} :
    checkedAddSigned a d = some c ↔
      (0 ≤ (a : Int) + d ∧ (a : Int) + d ≤ (U128MAX : Int)) ∧ c = ((a : Int) + d).toNat := by
  unfold checkedAddSigned
  split <;> simp_all [eq_comm]

/-! ### Claim C8: correctness of the integer square root -/

/-- Invariant proof of the binary search: starting from an interval that
brackets the root with enough fuel to halve it down to width one, the loop
returns the rounded-down square root. -/
theorem u128_sqrt_loop_correct (input : Nat) (hin : input ≤ U128MAX) :
    ∀ fuel low high, low < high → high - low ≤ 2 ^ fuel →
      low * low ≤ input → input < high * high →
      u128_sqrt_loop input fuel low high * u128_sqrt_loop input fuel low high ≤ input ∧
      input < (u128_sqrt_loop input fuel low high + 1) *
        (u128_sqrt_loop input fuel low high + 1) := by
  intro fuel
  induction fuel with
  | zero =>
    intro low high h1 h2 h3 h4
    have hh : high = low + 1 := by omega
    subst hh
    simpa [u128_sqrt_loop] using ⟨h3, h4⟩
  | succ fuel ih =>
    intro low high h1 h2 h3 h4
    by_cases hguard : low = high - 1
    · have hstep : u128_sqrt_loop input (fuel + 1) low high = low := by
        simp only [u128_sqrt_loop]
        rw [if_pos hguard]
      rw [hstep]
      have hh : high = low + 1 := by omega
      subst hh
      exact ⟨h3, h4⟩
    · have hlow1 : low + 1 < high := by omega
      have hk : (2 : Nat) ^ (fuel + 1) = 2 * 2 ^ fuel := by ring
      rw [hk] at h2
      have hmid_lo : low < (low + high) / 2 := by omega
      have hmid_hi : (low + high) / 2 < high := by omega
      by_cases hcond : (low + high) / 2 * ((low + high) / 2) ≤ U128MAX ∧
          (low + high) / 2 * ((low + high) / 2) ≤ input
      · have hstep : u128_sqrt_loop input (fuel + 1) low high =
            u128_sqrt_loop input fuel ((low + high) / 2) high := by
          simp [u128_sqrt_loop, hguard, hcond]
        rw [hstep]
        exact ih ((low + high) / 2) high hmid_hi (by omega) hcond.2 h4
      · have hstep : u128_sqrt_loop input (fuel + 1) low high =
            u128_sqrt_loop input fuel low ((low + high) / 2) := by
          simp [u128_sqrt_loop, hguard, hcond]
        rw [hstep]
        have hmi : input < (low + high) / 2 * ((low + high) / 2) := by
          by_contra hle
          push_neg at hle
          exact hcond ⟨le_trans hle hin, hle⟩
        exact ih low ((low + high) / 2) hmid_lo (by omega) h3 hmi

/-- Claim C8: for every 128-bit input x, u128_sqrt x is the largest r with
r * r ≤ x (so r^2 ≤ x < (r+1)^2 over unbounded integers), the result always
fits in a u64 (making the final try_into the identity, i.e. the search
terminates with a valid result for every input), and in particular
u128_sqrt 0 = 0 and u128_sqrt u128::MAX = u64::MAX. -/
theorem u128_sqrt_is_floor_sqrt :
    (∀ x, x ≤ U128MAX →
      u128_sqrt x * u128_sqrt x ≤ x ∧
      x < (u128_sqrt x + 1) * (u128_sqrt x + 1) ∧
      u128_sqrt x ≤ U64MAX) ∧
    u128_sqrt 0 = 0 ∧ u128_sqrt U128MAX = U64MAX := by
  refine ⟨?_, by rfl, by rfl⟩
  intro x hx
  have hhigh : (2 <<< 64 : Nat) = 2 ^ 65 := by
    rw [Nat.shiftLeft_eq]
    ring
  have h := u128_sqrt_loop_correct x hx 130 0 (2 <<< 64)
    (by rw [hhigh]; positivity)
    (by rw [hhigh]; norm_num)
    (by simp)
    (by
      rw [hhigh]
      calc x ≤ U128MAX := hx
        _ < 2 ^ 65 * 2 ^ 65 := by norm_num [U128MAX])
  refine ⟨h.1, h.2, ?_⟩
  by_contra hgt
  push_neg at hgt
  have h64 : 2 ^ 64 ≤ u128_sqrt x := by
    have : U64MAX + 1 = 2 ^ 64 := by norm_num [U64MAX]
    omega
  have : (2 : Nat) ^ 64 * 2 ^ 64 ≤ u128_sqrt x * u128_sqrt x :=
    Nat.mul_le_mul h64 h64
  have hbig : (2 : Nat) ^ 128 ≤ x := by
    calc (2 : Nat) ^ 128 = 2 ^ 64 * 2 ^ 64 := by ring
      _ ≤ u128_sqrt x * u128_sqrt x := this
      _ ≤ x := h.1
  have : x ≤ 2 ^ 128 - 1 := hx
  omega

/-- Witness for claim C8 at the concrete input 25. -/
theorem u128_sqrt_is_floor_sqrt_witness :
    u128_sqrt 25 * u128_sqrt 25 ≤ 25 ∧
    25 < (u128_sqrt 25 + 1) * (u128_sqrt 25 + 1) ∧
    u128_sqrt 25 ≤ U64MAX :=
  u128_sqrt_is_floor_sqrt.1 25 (by norm_num [U128MAX])

/-! ### Claim C2: the swap quote formula -/

/-- Modelled from the spec: the constant-product swap quote computed over
unbounded integers,
floor((1000 - fee) * amount_in * reserve_out / (1000 * reserve_in + (1000 - fee) * amount_in)). -/
def swap_quote_spec (reserve_in reserve_out amount_in fee : Nat) : Nat :=
  (1000 - fee) * amount_in * reserve_out / (1000 * reserve_in + (1000 - fee) * amount_in)

/-- Claim C2 counterexample: at fee 0, reserves (1, 2) and amount_in 2^127 the
u128 intermediate product (1000 - fee) * amount_in overflows and the quote
aborts, while the unbounded-integer formula yields 1 — so the claim fails for
the full 128-bit input range. -/
theorem calculate_swap_to_amount_not_exact_on_all_u128 :
    calculate_swap_to_amount 1 2 (2 ^ 127) 0 = none ∧
    swap_quote_spec 1 2 (2 ^ 127) 0 = 1 := by
  constructor
  · rfl
  · rfl

/-- Claim C2 amended: whenever neither u128 product nor the u128 sum
overflows and the divisor is non-zero, the quote equals the unbounded-integer
formula exactly (rounded toward zero by the final division). -/
theorem calculate_swap_to_amount_exact (pin pout ain fee : Nat)
    (_hfee : fee ≤ 1000)
    (h1 : (1000 - fee) * ain ≤ U128MAX)
    (h2 : (1000 - fee) * ain * pout ≤ U128MAX)
    (h3 : 1000 * pin ≤ U128MAX)
    (h4 : 1000 * pin + (1000 - fee) * ain ≤ U128MAX)
    (h5 : 1000 * pin + (1000 - fee) * ain ≠ 0) :
    calculate_swap_to_amount pin pout ain fee =
      some (swap_quote_spec pin pout ain fee) := by
  simp only [calculate_swap_to_amount, swap_quote_spec, Option.bind_eq_bind]
  rw [show mulU128 (1000 - fee) ain = some ((1000 - fee) * ain) from by
    simp [addU128_eq_some, mulU128_eq_some, h1]]
  rw [Option.some_bind]
  rw [show mulU128 ((1000 - fee) * ain) pout = some ((1000 - fee) * ain * pout) from by
    simp [mulU128_eq_some, h2]]
  rw [Option.some_bind]
  rw [show mulU128 1000 pin = some (1000 * pin) from by
    simp [mulU128_eq_some, h3]]
  rw [Option.some_bind]
  rw [show addU128 (1000 * pin) ((1000 - fee) * ain) =
      some (1000 * pin + (1000 - fee) * ain) from by
    simp [addU128_eq_some, h4]]
  rw [Option.some_bind]
  simp [divU128, h5]

/-- Witness for the amended claim C2 at reserves (100, 100), amount 10,
fee 3. -/
theorem calculate_swap_to_amount_exact_witness :
    calculate_swap_to_amount 100 100 10 3 = some (swap_quote_spec 100 100 10 3) :=
  calculate_swap_to_amount_exact 100 100 10 3 (by norm_num)
    (by norm_num [U128MAX]) (by norm_num [U128MAX]) (by norm_num [U128MAX])
    (by norm_num [U128MAX]) (by norm_num)

/-! ### Claim C9: equivalent deposit and minted shares -/

/-- Claim C9 counterexample: with amount_in = 0 and reserve_in = 0 the minted
share computation divides by zero and aborts, instead of returning (0, 0) as
the claim states for every reserve value. -/
theorem calculate_equivalent_and_minted_tokens_zero_pool_aborts :
    calculate_equivalent_and_minted_tokens 0 0 7 5 = none := by
  rfl

/-- Claim C9 amended: for a non-zero reserve_in and intermediate products
within u128 range, the function returns (0, 0) for amount_in = 0 and
otherwise (floor(amount_in * reserve_out / reserve_in) + 1,
floor(amount_in * total_shares / reserve_in)); in particular depositing 10
against reserves (100, 100) with 100 total shares yields (11, 10). -/
theorem calculate_equivalent_and_minted_tokens_exact :
    (∀ ain pin pout total, pin ≠ 0 →
      ain * pout ≤ U128MAX →
      ain * pout / pin + 1 ≤ U128MAX →
      ain * total ≤ U128MAX →
      calculate_equivalent_and_minted_tokens ain pin pout total =
        some (if 0 < ain then ain * pout / pin + 1 else 0, ain * total / pin)) ∧
    calculate_equivalent_and_minted_tokens 10 100 100 100 = some (11, 10) := by
  constructor
  · intro ain pin pout total hpin h1 h2 h3
    simp only [calculate_equivalent_and_minted_tokens, Option.bind_eq_bind]
    by_cases hain : ain > 0
    · rw [if_pos hain]
      rw [show mulU128 ain pout = some (ain * pout) from by simp [mulU128_eq_some, h1]]
      rw [Option.some_bind]
      rw [show divU128 (ain * pout) pin = some (ain * pout / pin) from by
        simp [divU128_eq_some, hpin]]
      rw [Option.some_bind]
      rw [show addU128 (ain * pout / pin) 1 = some (ain * pout / pin + 1) from by
        simp [addU128_eq_some, h2]]
      rw [Option.some_bind]
      rw [show mulU128 ain total = some (ain * total) from by simp [mulU128_eq_some, h3]]
      rw [Option.some_bind]
      simp [divU128, hpin, hain]
    · rw [if_neg hain]
      rw [Option.some_bind]
      rw [show mulU128 ain total = some (ain * total) from by simp [mulU128_eq_some, h3]]
      rw [Option.some_bind]
      simp [divU128, hpin, hain]
  · rfl

/-- Witness for the amended claim C9 at the concrete scenario from the spec. -/
theorem calculate_equivalent_and_minted_tokens_exact_witness :
    calculate_equivalent_and_minted_tokens 10 100 100 100 =
      some (if 0 < 10 then 10 * 100 / 100 + 1 else 0, 10 * 100 / 100) :=
  calculate_equivalent_and_minted_tokens_exact.1 10 100 100 100 (by norm_num)
    (by norm_num [U128MAX]) (by norm_num [U128MAX]) (by norm_num [U128MAX])

/-! ### Dispatch lemmas for the three token kinds -/

theorem TokenBalance.get_amount_of_A (b : TokenBalance) :
    b.get_amount_of Token.A = b.a_tokens := by
  simp [TokenBalance.get_amount_of, Token.A, Token.LIQUIDITY]

theorem TokenBalance.get_amount_of_B (b : TokenBalance) :
    b.get_amount_of Token.B = b.b_tokens := by
  simp [TokenBalance.get_amount_of, Token.B, Token.A, Token.LIQUIDITY]

theorem TokenBalance.get_amount_of_LIQUIDITY (b : TokenBalance) :
    b.get_amount_of Token.LIQUIDITY = b.liquidity_tokens := by
  simp [TokenBalance.get_amount_of]

theorem TokenBalance.set_amount_of_A (b : TokenBalance) (v : Nat) :
    b.set_amount_of Token.A v = { b with a_tokens := v } := by
  simp [TokenBalance.set_amount_of, Token.A, Token.LIQUIDITY]

theorem TokenBalance.set_amount_of_B (b : TokenBalance) (v : Nat) :
    b.set_amount_of Token.B v = { b with b_tokens := v } := by
  simp [TokenBalance.set_amount_of, Token.B, Token.A, Token.LIQUIDITY]

theorem TokenBalance.set_amount_of_LIQUIDITY (b : TokenBalance) (v : Nat) :
    b.set_amount_of Token.LIQUIDITY v = { b with liquidity_tokens := v } := by
  simp [TokenBalance.set_amount_of]

/-! ### Claim C7: the outstanding-locks guard of reclaim_liquidity -/

/-- Claim C7: reclaim_liquidity aborts without mutation precisely when some
lock is outstanding: with a non-empty lock table the call returns none, and
with an empty lock table the guard passes and the call is exactly its body,
so it never fails on that ground. -/
theorem reclaim_liquidity_guard_rejects_exactly_nonempty_locks :
    (∀ (sender : Address) (s : LiquiditySwapContractState) (amt : Nat),
      s.virtual_state.locks.isEmpty = false →
      reclaim_liquidity sender s amt = none) ∧
    (∀ (sender : Address) (s : LiquiditySwapContractState) (amt : Nat),
      s.virtual_state.locks.isEmpty = true →
      reclaim_liquidity sender s amt = reclaim_liquidity_after_guard sender s amt) := by
  constructor <;>
    · intro sender s amt h
      simp [reclaim_liquidity, VirtualState.any_locked_liquidity, h]

/-- A concrete outstanding lock: swap 10 A for 9 B, owned by user 10. -/
def exLock : LiquidityLock := ⟨10, 9, TokensInOut.A_IN_B_OUT, 10⟩

/-- A virtual state holding exLock under id 0. -/
def exVSWithLock : VirtualState := ⟨1, [(0, exLock)], ⟨10, -9⟩⟩

/-- A ledger with pool reserves (100, 100), total supply 100, and user 10
holding 50 A tokens. -/
def exTBFull : TokenBalances := ⟨0, 1, 2, [(0, ⟨100, 100, 100⟩), (10, ⟨50, 0, 0⟩)]⟩

/-- Contract state with one outstanding lock. -/
def exStateLocked : LiquiditySwapContractState :=
  ⟨Permission.Anybody, 0, 3, exTBFull, exVSWithLock⟩

/-- Contract state with no outstanding lock. -/
def exStateUnlocked : LiquiditySwapContractState :=
  ⟨Permission.Anybody, 0, 3, exTBFull, VirtualState.new⟩

/-- Witness for claim C7: with one lock outstanding reclaim aborts; with the
lock table empty it reduces to its body. -/
theorem reclaim_liquidity_guard_witness :
    reclaim_liquidity 10 exStateLocked 5 = none ∧
    reclaim_liquidity 10 exStateUnlocked 5 =
      reclaim_liquidity_after_guard 10 exStateUnlocked 5 :=
  ⟨reclaim_liquidity_guard_rejects_exactly_nonempty_locks.1 10 exStateLocked 5 rfl,
   reclaim_liquidity_guard_rejects_exactly_nonempty_locks.2 10 exStateUnlocked 5 rfl⟩

/-! ### Claim C10: reclaiming with a zero total share supply -/

/-- With a zero total supply both divisions in calculate_reclaim_output are
divisions by zero, so the computation always aborts. -/
theorem calculate_reclaim_output_zero_total (amt pa pb : Nat) :
    calculate_reclaim_output amt pa pb 0 = none := by
  simp only [calculate_reclaim_output, Option.bind_eq_bind]
  cases h : mulU128 pa amt with
  | none => rfl
  | some p => simp [divU128]

/-- Burning shares never changes the POOL holder's share counter to non-zero:
a successful debit of the sender leaves a zero pool share counter zero. -/
theorem deduct_preserves_pool_liquidity_zero
    (tb : TokenBalances) (pool sender : Address) (amt : Nat) (tb' : TokenBalances)
    (h : tb.deduct_from_token_balance sender Token.LIQUIDITY amt = some tb')
    (h0 : (tb.get_balance_for pool).liquidity_tokens = 0) :
    (tb'.get_balance_for pool).liquidity_tokens = 0 := by
  simp only [TokenBalances.deduct_from_token_balance, Option.bind_eq_bind] at h
  cases hs : subU128 ((tb.get_balance_for sender).get_amount_of Token.LIQUIDITY) amt with
  | none => rw [hs] at h; simp at h
  | some v =>
    rw [hs] at h
    rw [Option.some_bind] at h
    rw [subU128_eq_some] at hs
    by_cases hps : pool = sender
    · subst hps
      rw [TokenBalance.get_amount_of_LIQUIDITY, h0] at hs
      have hv : v = 0 := by omega
      subst hv
      split at h <;>
      · cases h.symm
        simp [TokenBalances.get_balance_for, Fmap.lookup_erase, Fmap.lookup_insert,
          TokenBalance.set_amount_of_LIQUIDITY, EMPTY_BALANCE]
    · split at h <;>
      · cases h.symm
        simpa [TokenBalances.get_balance_for, Fmap.lookup_erase, Fmap.lookup_insert, hps]
          using h0

/-- Claim C10: whenever the pool holder's share counter (the total supply) is
zero, reclaim_liquidity never returns normally — in particular with an empty
lock table, a zero burn amount and an absent caller the debit succeeds and the
abort is precisely the division by the zero total supply. -/
theorem reclaim_liquidity_zero_supply_always_aborts :
    (∀ (sender : Address) (s : LiquiditySwapContractState) (amt : Nat),
      (s.token_balances.get_balance_for s.liquidity_pool_address).liquidity_tokens = 0 →
      reclaim_liquidity sender s amt = none) ∧
    (∀ pa pb : Nat, calculate_reclaim_output 0 pa pb 0 = none) ∧
    (∀ (tb : TokenBalances) (sender : Address), tb.balances.lookup sender = none →
      tb.deduct_from_token_balance sender Token.LIQUIDITY 0 =
        some { tb with balances := tb.balances.erase sender }) := by
  refine ⟨?_, fun pa pb => calculate_reclaim_output_zero_total 0 pa pb, ?_⟩
  · intro sender s amt h0
    rw [reclaim_liquidity]
    by_cases hg : s.virtual_state.any_locked_liquidity
    · rw [if_pos hg]
      rw [reclaim_liquidity_after_guard]
      simp only [Option.bind_eq_bind]
      cases hd : s.token_balances.deduct_from_token_balance sender Token.LIQUIDITY amt with
      | none => rfl
      | some tb1 =>
        rw [Option.some_bind]
        have h1 := deduct_preserves_pool_liquidity_zero _ _ _ _ _ hd h0
        rw [h1, calculate_reclaim_output_zero_total]
        rfl
    · rw [if_neg hg]
  · intro tb sender h
    simp [TokenBalances.deduct_from_token_balance, TokenBalances.get_balance_for, h,
      EMPTY_BALANCE, TokenBalance.get_amount_of_LIQUIDITY,
      TokenBalance.set_amount_of_LIQUIDITY, subU128, U128MAX,
      TokenBalance.user_has_no_tokens]

/-- Contract state with no locks, reserves (100, 100) and a zero total share
supply. -/
def exStateZeroSupply : LiquiditySwapContractState :=
  ⟨Permission.Anybody, 0, 3, ⟨0, 1, 2, [(0, ⟨100, 100, 0⟩)]⟩, VirtualState.new⟩

/-- Witness for claim C10 at a concrete zero-supply state and caller with no
ledger entry. -/
theorem reclaim_liquidity_zero_supply_witness :
    reclaim_liquidity 10 exStateZeroSupply 0 = none :=
  reclaim_liquidity_zero_supply_always_aborts.1 10 exStateZeroSupply 0 rfl

/-! ### Claim C1: the guard of provide_initial_liquidity -/

/-- Ledger whose pool holder owns (5, 0, 0) — reserve A non-zero, reserve B
zero — while user 10 owns (4, 1, 0). -/
def exC1TB : TokenBalances := ⟨0, 1, 2, [(0, ⟨5, 0, 0⟩), (10, ⟨4, 1, 0⟩)]⟩

/-- Contract state for the claim C1 failing input. -/
def exC1State : LiquiditySwapContractState :=
  ⟨Permission.Anybody, 0, 3, exC1TB, VirtualState.new⟩

/-- Claim C1 (code bug): in a state whose pool reserve A is 5 and reserve B is
0 — so one actual reserve is non-zero — provide_initial_liquidity(4, 1) does
NOT abort: the guard !(a != 0 && b != 0) passes and the call returns normally,
minting sqrt(4) = 2 shares, contrary to the requirement that both reserves be
zero. -/
theorem provide_initial_liquidity_accepts_nonzero_reserve :
    (exC1State.token_balances.get_balance_for exC1State.liquidity_pool_address).a_tokens
      = 5 ∧
    (exC1State.token_balances.get_balance_for exC1State.liquidity_pool_address).b_tokens
      = 0 ∧
    (provide_initial_liquidity 10 exC1State 4 1).isSome = true := by
  refine ⟨rfl, rfl, ?_⟩
  rfl

/-! ### Claim C4: sparsity of the ledger -/

/-- The three ledger operations the claim quantifies over. -/
inductive LedgerOp
  | credit (user : Address) (token : Token) (amount : Nat)
  | debit (user : Address) (token : Token) (amount : Nat)
  | move (fromAddr toAddr : Address) (token : Token) (amount : Nat)
deriving DecidableEq

/-- Run one ledger operation. -/
def applyLedgerOp (tb : TokenBalances) : LedgerOp → Option TokenBalances
  | .credit u t amt => tb.add_to_token_balance u t amt
  | .debit u t amt => tb.deduct_from_token_balance u t amt
  | .move f g t amt => tb.move_tokens f g t amt

/-- Run a sequence of ledger operations, aborting as soon as one aborts. -/
def applyLedgerOps : TokenBalances → List LedgerOp → Option TokenBalances
  | tb, [] => some tb
  | tb, op :: ops => (applyLedgerOp tb op).bind (fun tb1 => applyLedgerOps tb1 ops)

/-- The sparsity invariant: no holder whose three balance fields are all zero
has an entry in the balances map. -/
def Sparse (tb : TokenBalances) : Prop :=
  ∀ u bal, tb.balances.lookup u = some bal → bal.user_has_no_tokens = false

/-- Credits (including the credit half of a move) must carry a non-zero
amount; debits are unrestricted. -/
def okLedgerOp : LedgerOp → Prop
  | .credit _ _ amt => amt ≠ 0
  | .debit _ _ _ => True
  | .move _ _ _ amt => amt ≠ 0

/-- An empty ledger (pool 0, reserve token addresses 1 and 2). -/
def exEmptyTB : TokenBalances := ⟨0, 1, 2, []⟩

/-- Claim C4 counterexample: a single credit of amount 0 to user 7, starting
from the empty ledger, creates an entry whose three fields are all zero — the
sparsity invariant does NOT hold after arbitrary credit sequences. -/
theorem sparsity_fails_on_zero_credit :
    applyLedgerOps exEmptyTB [LedgerOp.credit 7 Token.A 0] =
      some ⟨0, 1, 2, [(7, ⟨0, 0, 0⟩)]⟩ ∧
    Fmap.lookup (α := Address) (β := TokenBalance) [(7, ⟨0, 0, 0⟩)] 7 =
      some ⟨0, 0, 0⟩ ∧
    TokenBalance.user_has_no_tokens ⟨0, 0, 0⟩ = true := by
  refine ⟨rfl, rfl, rfl⟩

/-- Writing a non-zero value into any field leaves the holder with tokens. -/
theorem user_has_no_tokens_set_false (b : TokenBalance) (t : Token) (v : Nat)
    (hv : v ≠ 0) :
    (b.set_amount_of t v).user_has_no_tokens = false := by
  cases t <;>
    simp [TokenBalance.set_amount_of, TokenBalance.user_has_no_tokens,
      Token.A, Token.B, Token.LIQUIDITY, hv]

/-- A non-zero credit preserves sparsity. -/
theorem sparse_credit (tb : TokenBalances) (u : Address) (t : Token) (amt : Nat)
    (tb' : TokenBalances) (h : tb.add_to_token_balance u t amt = some tb')
    (hamt : amt ≠ 0) (hs : Sparse tb) : Sparse tb' := by
  simp only [TokenBalances.add_to_token_balance, Option.bind_eq_bind] at h
  cases ha : addU128 ((tb.get_balance_for u).get_amount_of t) amt with
  | none => rw [ha] at h; simp at h
  | some v =>
    rw [ha, Option.some_bind] at h
    rw [addU128_eq_some] at ha
    cases h.symm
    intro u' bal' hlook
    simp only [Fmap.lookup_insert] at hlook
    by_cases hu : u' = u
    · rw [if_pos hu] at hlook
      cases hlook.symm
      exact user_has_no_tokens_set_false _ _ _ (by omega)
    · rw [if_neg hu] at hlook
      exact hs u' bal' hlook

/-- A debit preserves sparsity. -/
theorem sparse_debit (tb : TokenBalances) (u : Address) (t : Token) (amt : Nat)
    (tb' : TokenBalances) (h : tb.deduct_from_token_balance u t amt = some tb')
    (hs : Sparse tb) : Sparse tb' := by
  simp only [TokenBalances.deduct_from_token_balance, Option.bind_eq_bind] at h
  cases hsub : subU128 ((tb.get_balance_for u).get_amount_of t) amt with
  | none => rw [hsub] at h; simp at h
  | some v =>
    rw [hsub, Option.some_bind] at h
    split at h
    · cases h.symm
      intro u' bal' hlook
      rw [Fmap.lookup_erase] at hlook
      by_cases hu : u' = u
      · rw [if_pos hu] at hlook; cases hlook
      · rw [if_neg hu] at hlook
        exact hs u' bal' hlook
    · cases h.symm
      intro u' bal' hlook
      rw [Fmap.lookup_insert] at hlook
      by_cases hu : u' = u
      · rw [if_pos hu] at hlook
        cases hlook.symm
        rename_i hcond
        exact Bool.not_eq_true _ ▸ Bool.of_not_eq_true hcond
      · rw [if_neg hu] at hlook
        exact hs u' bal' hlook

/-- A non-zero move preserves sparsity. -/
theorem sparse_move (tb : TokenBalances) (f g : Address) (t : Token) (amt : Nat)
    (tb' : TokenBalances) (h : tb.move_tokens f g t amt = some tb')
    (hamt : amt ≠ 0) (hs : Sparse tb) : Sparse tb' := by
  simp only [TokenBalances.move_tokens, Option.bind_eq_bind] at h
  cases hd : tb.deduct_from_token_balance f t amt with
  | none => rw [hd] at h; simp at h
  | some tb1 =>
    rw [hd, Option.some_bind] at h
    exact sparse_credit tb1 g t amt tb' h hamt (sparse_debit tb f t amt tb1 hd hs)

/-- Sparsity is preserved along any abort-free sequence of well-formed
ledger operations. -/
theorem sparse_applyLedgerOps :
    ∀ (ops : List LedgerOp) (tb tb' : TokenBalances), Sparse tb →
      (∀ op ∈ ops, okLedgerOp op) → applyLedgerOps tb ops = some tb' →
      Sparse tb' := by
  intro ops
  induction ops with
  | nil =>
    intro tb tb' hs _ h
    cases h.symm
    exact hs
  | cons op ops ih =>
    intro tb tb' hs hok h
    simp only [applyLedgerOps, Option.bind_eq_bind] at h
    cases h1 : applyLedgerOp tb op with
    | none => rw [h1] at h; simp at h
    | some tb1 =>
      rw [h1, Option.some_bind] at h
      have hs1 : Sparse tb1 := by
        have hokop := hok op (List.mem_cons_self op ops)
        cases op with
        | credit u t amt => exact sparse_credit tb u t amt tb1 h1 hokop hs
        | debit u t amt => exact sparse_debit tb u t amt tb1 h1 hs
        | move f g t amt => exact sparse_move tb f g t amt tb1 h1 hokop hs
      exact ih tb1 tb' hs1 (fun o ho => hok o (List.mem_cons_of_mem op ho)) h

/-- Claim C4 amended: starting from the empty ledger, after any abort-free
sequence of credits, debits and moves whose credited amounts are non-zero, no
all-zero holder has an entry; and unconditionally, a successful debit that
brings all three balance fields to zero removes the holder's entry. -/
theorem ledger_sparsity_invariant :
    (∀ (ops : List LedgerOp) (tb' : TokenBalances),
      (∀ op ∈ ops, okLedgerOp op) →
      applyLedgerOps exEmptyTB ops = some tb' → Sparse tb') ∧
    (∀ (tb : TokenBalances) (user : Address) (t : Token) (amt : Nat)
        (tb' : TokenBalances),
      tb.deduct_from_token_balance user t amt = some tb' →
      ((tb.get_balance_for user).set_amount_of t
        ((tb.get_balance_for user).get_amount_of t - amt)).user_has_no_tokens = true →
      tb'.balances.lookup user = none) := by
  constructor
  · intro ops tb' hok h
    refine sparse_applyLedgerOps ops exEmptyTB tb' ?_ hok h
    intro u bal hlook
    cases hlook
  · intro tb user t amt tb' h hzero
    simp only [TokenBalances.deduct_from_token_balance, Option.bind_eq_bind] at h
    cases hsub : subU128 ((tb.get_balance_for user).get_amount_of t) amt with
    | none => rw [hsub] at h; simp at h
    | some v =>
      rw [hsub, Option.some_bind] at h
      rw [subU128_eq_some] at hsub
      rw [hsub.2] at h
      rw [if_pos hzero] at h
      cases h.symm
      simp [Fmap.lookup_erase]

/-- Witness for the amended claim C4: crediting 5 A tokens to user 7 and
debiting them again yields a sparse ledger. -/
theorem ledger_sparsity_invariant_witness : Sparse exEmptyTB :=
  ledger_sparsity_invariant.1
    [LedgerOp.credit 7 Token.A 5, LedgerOp.debit 7 Token.A 5] exEmptyTB
    (by simp [okLedgerOp]) rfl

/-! ### Claim C5: lock acquire/cancel round trip -/

theorem LockLiquidity.get_delta_A (ll : LockLiquidity) :
    ll.get_amount_of Token.A = ll.a_tokens := by
  simp [LockLiquidity.get_amount_of]

theorem LockLiquidity.get_delta_B (ll : LockLiquidity) :
    ll.get_amount_of Token.B = ll.b_tokens := by
  simp [LockLiquidity.get_amount_of, Token.A, Token.B]

theorem LockLiquidity.set_delta_A (ll : LockLiquidity) (v : Int) :
    ll.set_amount_of Token.A v = { ll with a_tokens := v } := by
  simp [LockLiquidity.set_amount_of]

theorem LockLiquidity.set_delta_B (ll : LockLiquidity) (v : Int) :
    ll.set_amount_of Token.B v = { ll with b_tokens := v } := by
  simp [LockLiquidity.set_amount_of, Token.A, Token.B]

theorem Fmap.erase_idem {α β : Type} [DecidableEq α] (m : Fmap α β) (k : α) :
    (m.erase k).erase k = m.erase k := by
  induction m with
  | nil => rfl
  | cons p m ih =>
    by_cases hp : p.1 = k
    · simp [Fmap.erase, hp, ih]
    · simp [Fmap.erase, hp, ih]

theorem Fmap.erase_insert_self {α β : Type} [DecidableEq α] (m : Fmap α β)
    (k : α) (v : β) : (m.insert k v).erase k = m.erase k := by
  simp [Fmap.insert, Fmap.erase, Fmap.erase_idem]

/-- Round trip at the virtual-state level: a successful add_lock of a lock
with one of the two real token pairings, at a fresh id and from in-range
deltas, can always be removed again by its owner, and doing so restores both
the lock table and the lock-liquidity deltas exactly. -/
theorem add_remove_roundtrip (vs : VirtualState) (lock : LiquidityLock)
    (vs1 : VirtualState) (id : Nat)
    (htio : lock.tokens_in_out = TokensInOut.A_IN_B_OUT ∨
      lock.tokens_in_out = TokensInOut.B_IN_A_OUT)
    (hfresh : vs.locks.lookup vs.next_lock_id = none)
    (ha : inI128 vs.lock_liquidity.a_tokens)
    (hb : inI128 vs.lock_liquidity.b_tokens)
    (hadd : vs.add_lock lock = some (vs1, id)) :
    ∃ vs2 : VirtualState, vs1.remove_lock id lock.owner = some (vs2, lock) ∧
      vs2.lock_liquidity = vs.lock_liquidity ∧
      vs2.locks = vs.locks := by
  have herase : (vs.locks.insert vs.next_lock_id lock).erase vs.next_lock_id
      = vs.locks := by
    rw [Fmap.erase_insert_self, Fmap.erase_eq_self_of_lookup_none _ _ hfresh]
  rcases htio with h | h
  · simp only [VirtualState.add_lock, Option.bind_eq_bind, h,
      TokensInOut.A_IN_B_OUT, LockLiquidity.get_delta_A,
      LockLiquidity.set_delta_A, LockLiquidity.get_delta_B,
      LockLiquidity.set_delta_B] at hadd
    cases hnext : addU128 vs.next_lock_id 1 with
    | none => rw [hnext] at hadd; simp at hadd
    | some next =>
    rw [hnext, Option.some_bind] at hadd
    cases hdin : addI128 vs.lock_liquidity.a_tokens (u128AsI128 lock.amount_in) with
    | none => rw [hdin] at hadd; simp at hadd
    | some d_in =>
    rw [hdin, Option.some_bind] at hadd
    cases hdout : subI128 vs.lock_liquidity.b_tokens (u128AsI128 lock.amount_out) with
    | none => rw [hdout] at hadd; simp at hadd
    | some d_out =>
    rw [hdout, Option.some_bind, Option.some_inj, Prod.mk.injEq] at hadd
    obtain ⟨hvs1, hid⟩ := hadd
    subst hid
    rw [addI128_eq_some] at hdin
    rw [subI128_eq_some] at hdout
    have hsub1 : subI128 d_in (u128AsI128 lock.amount_in)
        = some vs.lock_liquidity.a_tokens := by
      rw [subI128_eq_some, hdin.2]
      constructor
      · simpa using ha
      · ring
    have hadd1 : addI128 d_out (u128AsI128 lock.amount_out)
        = some vs.lock_liquidity.b_tokens := by
      rw [addI128_eq_some, hdout.2]
      constructor
      · simpa using hb
      · ring
    refine ⟨⟨next, vs.locks, vs.lock_liquidity⟩, ?_, rfl, rfl⟩
    rw [← hvs1]
    simp only [VirtualState.remove_lock, Option.bind_eq_bind,
      Fmap.lookup_insert_self, Option.some_bind, if_pos rfl, h,
      TokensInOut.A_IN_B_OUT, LockLiquidity.get_delta_A,
      LockLiquidity.set_delta_A, LockLiquidity.get_delta_B,
      LockLiquidity.set_delta_B]
    rw [hsub1, Option.some_bind, hadd1, Option.some_bind, herase]
    simp
  · simp only [VirtualState.add_lock, Option.bind_eq_bind, h,
      TokensInOut.B_IN_A_OUT, LockLiquidity.get_delta_A,
      LockLiquidity.set_delta_A, LockLiquidity.get_delta_B,
      LockLiquidity.set_delta_B] at hadd
    cases hnext : addU128 vs.next_lock_id 1 with
    | none => rw [hnext] at hadd; simp at hadd
    | some next =>
    rw [hnext, Option.some_bind] at hadd
    cases hdin : addI128 vs.lock_liquidity.b_tokens (u128AsI128 lock.amount_in) with
    | none => rw [hdin] at hadd; simp at hadd
    | some d_in =>
    rw [hdin, Option.some_bind] at hadd
    cases hdout : subI128 vs.lock_liquidity.a_tokens (u128AsI128 lock.amount_out) with
    | none => rw [hdout] at hadd; simp at hadd
    | some d_out =>
    rw [hdout, Option.some_bind, Option.some_inj, Prod.mk.injEq] at hadd
    obtain ⟨hvs1, hid⟩ := hadd
    subst hid
    rw [addI128_eq_some] at hdin
    rw [subI128_eq_some] at hdout
    have hsub1 : subI128 d_in (u128AsI128 lock.amount_in)
        = some vs.lock_liquidity.b_tokens := by
      rw [subI128_eq_some, hdin.2]
      constructor
      · simpa using hb
      · ring
    have hadd1 : addI128 d_out (u128AsI128 lock.amount_out)
        = some vs.lock_liquidity.a_tokens := by
      rw [addI128_eq_some, hdout.2]
      constructor
      · simpa using ha
      · ring
    refine ⟨⟨next, vs.locks, vs.lock_liquidity⟩, ?_, rfl, rfl⟩
    rw [← hvs1]
    simp only [VirtualState.remove_lock, Option.bind_eq_bind,
      Fmap.lookup_insert_self, Option.some_bind, if_pos rfl, h,
      TokensInOut.B_IN_A_OUT, LockLiquidity.get_delta_A,
      LockLiquidity.set_delta_A, LockLiquidity.get_delta_B,
      LockLiquidity.set_delta_B]
    rw [hsub1, Option.some_bind, hadd1, Option.some_bind, herase]
    simp

/-- Claim C5: acquiring a lock (applying delta[token_in] += amount_in,
delta[token_out] -= amount_out and storing the lock at the next fresh id) and
then cancelling that same lock by its id with the owner as requester restores
the lock-liquidity deltas (hence the virtual reserves) and the lock set to
their exact pre-acquisition values, leaving all token balances untouched. -/
theorem lock_acquire_cancel_restores_virtual_state
    (s : LiquiditySwapContractState) (lock : LiquidityLock)
    (vs1 : VirtualState) (id : Nat)
    (htio : lock.tokens_in_out = TokensInOut.A_IN_B_OUT ∨
      lock.tokens_in_out = TokensInOut.B_IN_A_OUT)
    (hfresh : s.virtual_state.locks.lookup s.virtual_state.next_lock_id = none)
    (ha : inI128 s.virtual_state.lock_liquidity.a_tokens)
    (hb : inI128 s.virtual_state.lock_liquidity.b_tokens)
    (hadd : s.virtual_state.add_lock lock = some (vs1, id)) :
    ∃ s2 : LiquiditySwapContractState,
      cancel_lock lock.owner { s with virtual_state := vs1 } id = some s2 ∧
      s2.virtual_state.lock_liquidity = s.virtual_state.lock_liquidity ∧
      s2.virtual_state.locks = s.virtual_state.locks ∧
      s2.token_balances = s.token_balances := by
  obtain ⟨vs2, hrem, hll, hlocks⟩ :=
    add_remove_roundtrip _ _ _ _ htio hfresh ha hb hadd
  refine ⟨{ s with virtual_state := vs2 }, ?_, hll, hlocks, rfl⟩
  simp [cancel_lock, hrem]

set_option maxRecDepth 8000 in
/-- Witness for claim C5: acquiring exLock on the lock-free example state and
cancelling it restores the original lock set and deltas. -/
theorem lock_acquire_cancel_witness :
    ∃ s2 : LiquiditySwapContractState,
      cancel_lock exLock.owner
        { exStateUnlocked with virtual_state := exVSWithLock } 0 = some s2 ∧
      s2.virtual_state.lock_liquidity = exStateUnlocked.virtual_state.lock_liquidity ∧
      s2.virtual_state.locks = exStateUnlocked.virtual_state.locks ∧
      s2.token_balances = exStateUnlocked.token_balances :=
  lock_acquire_cancel_restores_virtual_state exStateUnlocked exLock exVSWithLock 0
    (Or.inl rfl) rfl
    (by norm_num [inI128, I128MIN, I128MAX, exStateUnlocked, VirtualState.new])
    (by norm_num [inI128, I128MIN, I128MAX, exStateUnlocked, VirtualState.new])
    (by rfl)

/-! ### Claim C3: locks are priced at the minimum of the two quotes -/

/-- Claim C3: when the pools have liquidity (and the caller passes the
permission gate), the lock path prices a lock at exactly the minimum of the
quote against the actual reserves and the quote against the virtual reserves:
a successful acquire_swap_lock (and the shared internal lock path used by
instant_swap) returns that minimum and stores it as the lock's guaranteed
output, and when the minimum is strictly below amount_out_minimum the whole
operation aborts without producing a state. -/
theorem acquire_swap_lock_prices_at_minimum_quote
    (s : LiquiditySwapContractState) (sender token_addr : Address)
    (amount_in aomin : Nat) (tio : TokensInOut) (virtB : TokenBalance) (qa qv : Nat)
    (htio : s.token_balances.deduce_tokens_in_out token_addr = some tio)
    (hvirt : s.virtual_state.virtual_liquidity_pools
      ((s.token_balances.get_balance_for s.liquidity_pool_address).get_amount_of Token.A)
      ((s.token_balances.get_balance_for s.liquidity_pool_address).get_amount_of Token.B)
      = some virtB)
    (hqa : calculate_swap_to_amount
      ((s.token_balances.get_balance_for s.liquidity_pool_address).get_amount_of
        tio.token_in)
      ((s.token_balances.get_balance_for s.liquidity_pool_address).get_amount_of
        tio.token_out)
      amount_in s.swap_fee_per_mille = some qa)
    (hqv : calculate_swap_to_amount (virtB.get_amount_of tio.token_in)
      (virtB.get_amount_of tio.token_out) amount_in s.swap_fee_per_mille = some qv)
    (hperm : s.permission_lock_swap.does_address_have_permission sender = true)
    (hliq : s.contract_pools_have_liquidity = true) :
    (∀ s1 id out,
      lock_internal s amount_in token_addr aomin sender = some (s1, id, out) →
        out = Nat.min qa qv ∧
        s1.virtual_state.locks.lookup id =
          some ⟨amount_in, Nat.min qa qv, tio, sender⟩) ∧
    (∀ s1 id out,
      acquire_swap_lock sender s token_addr amount_in aomin = some (s1, id, out) →
        out = Nat.min qa qv ∧
        s1.virtual_state.locks.lookup id =
          some ⟨amount_in, Nat.min qa qv, tio, sender⟩) ∧
    (Nat.min qa qv < aomin →
      lock_internal s amount_in token_addr aomin sender = none ∧
      acquire_swap_lock sender s token_addr amount_in aomin = none) := by
  have hmin : calculate_minimum_swap_to_amount s amount_in tio
      = some (Nat.min qa qv) := by
    simp only [calculate_minimum_swap_to_amount, Option.bind_eq_bind]
    rw [hvirt, Option.some_bind, hqa, Option.some_bind, hqv, Option.some_bind]
  have hacq : acquire_swap_lock sender s token_addr amount_in aomin
      = lock_internal s amount_in token_addr aomin sender := by
    rw [acquire_swap_lock, if_pos hperm, if_pos hliq]
  have hcore : ∀ s1 id out,
      lock_internal s amount_in token_addr aomin sender = some (s1, id, out) →
        out = Nat.min qa qv ∧
        s1.virtual_state.locks.lookup id =
          some ⟨amount_in, Nat.min qa qv, tio, sender⟩ := by
    intro s1 id out h
    simp only [lock_internal, Option.bind_eq_bind] at h
    rw [htio, Option.some_bind, hmin, Option.some_bind] at h
    split at h
    · simp at h
    · rw [Option.some_bind] at h
      cases hadd : s.virtual_state.add_lock
          ⟨amount_in, Nat.min qa qv, tio, sender⟩ with
      | none => rw [hadd] at h; simp at h
      | some pr =>
        rw [hadd] at h
        obtain ⟨vs', lock_id⟩ := pr
        rw [Option.some_bind, Option.some_inj] at h
        rw [Prod.mk.injEq, Prod.mk.injEq] at h
        obtain ⟨hs1, hid, hout⟩ := h
        refine ⟨hout.symm, ?_⟩
        simp only [VirtualState.add_lock, Option.bind_eq_bind] at hadd
        cases hnext : addU128 s.virtual_state.next_lock_id 1 with
        | none => rw [hnext] at hadd; simp at hadd
        | some next =>
        rw [hnext, Option.some_bind] at hadd
        cases hdin : addI128
            (s.virtual_state.lock_liquidity.get_amount_of tio.token_in)
            (u128AsI128 amount_in) with
        | none => rw [hdin] at hadd; simp at hadd
        | some d_in =>
        rw [hdin, Option.some_bind] at hadd
        cases hdout : subI128
            ((s.virtual_state.lock_liquidity.set_amount_of tio.token_in
              d_in).get_amount_of tio.token_out)
            (u128AsI128 (Nat.min qa qv)) with
        | none => rw [hdout] at hadd; simp at hadd
        | some d_out =>
        rw [hdout, Option.some_bind, Option.some_inj, Prod.mk.injEq] at hadd
        obtain ⟨hvs', hlock_id⟩ := hadd
        rw [← hs1, ← hvs', ← hid, ← hlock_id]
        exact Fmap.lookup_insert_self _ _ _
  refine ⟨hcore, ?_, ?_⟩
  · intro s1 id out h
    rw [hacq] at h
    exact hcore s1 id out h
  · intro hlt
    have hnone : lock_internal s amount_in token_addr aomin sender = none := by
      simp only [lock_internal, Option.bind_eq_bind]
      rw [htio, Option.some_bind, hmin, Option.some_bind, if_pos hlt]
    exact ⟨hnone, by rw [hacq]; exact hnone⟩

set_option maxRecDepth 8000 in
/-- Witness for claim C3: on the lock-free example state (reserves (100,100),
fee 3) the two quotes for swapping 10 A are both 9, and a requested minimum
of 10 makes acquire_swap_lock abort. -/
theorem acquire_swap_lock_prices_at_minimum_quote_witness :
    lock_internal exStateUnlocked 10 1 10 10 = none ∧
    acquire_swap_lock 10 exStateUnlocked 1 10 10 = none :=
  (acquire_swap_lock_prices_at_minimum_quote exStateUnlocked 10 1 10 10
    TokensInOut.A_IN_B_OUT ⟨100, 100, 0⟩ 9 9 rfl (by rfl) (by rfl) (by rfl)
    rfl rfl).2.2 (by norm_num)

/-! ### Claim C6: instant_swap as acquire + execute -/

/-- Shape of a successful remove_lock: the id was bound to the returned lock,
the requester is the owner, and the resulting lock table is the erasure. -/
theorem remove_lock_eq_some (vs : VirtualState) (lock_id : Nat) (sender : Address)
    (vs2 : VirtualState) (lock : LiquidityLock)
    (h : vs.remove_lock lock_id sender = some (vs2, lock)) :
    vs.locks.lookup lock_id = some lock ∧ sender = lock.owner ∧
    vs2.locks = vs.locks.erase lock_id ∧ vs2.next_lock_id = vs.next_lock_id := by
  simp only [VirtualState.remove_lock, Option.bind_eq_bind] at h
  cases hlk : vs.locks.lookup lock_id with
  | none => rw [hlk] at h; simp at h
  | some lk =>
  rw [hlk, Option.some_bind] at h
  split at h
  case isFalse => simp at h
  case isTrue hown =>
  cases hdin : subI128 (vs.lock_liquidity.get_amount_of lk.tokens_in_out.token_in)
      (u128AsI128 lk.amount_in) with
  | none => rw [hdin] at h; simp at h
  | some d_in =>
  rw [hdin, Option.some_bind] at h
  cases hdout : addI128 ((vs.lock_liquidity.set_amount_of lk.tokens_in_out.token_in
      d_in).get_amount_of lk.tokens_in_out.token_out)
      (u128AsI128 lk.amount_out) with
  | none => rw [hdout] at h; simp at h
  | some d_out =>
  rw [hdout, Option.some_bind, Option.some_inj, Prod.mk.injEq] at h
  obtain ⟨hvs2, hlock⟩ := h
  subst hlock
  rw [← hvs2]
  exact ⟨rfl, hown, rfl, rfl⟩

/-- A successful internal lock-swap execution erases exactly the executed
lock id from the lock table. -/
theorem execute_internal_erases_lock (s : LiquiditySwapContractState)
    (lock_id : Nat) (sender : Address) (s2 : LiquiditySwapContractState) (amt : Nat)
    (h : execute_lock_swap_internal s lock_id sender = some (s2, amt)) :
    s2.virtual_state.locks = s.virtual_state.locks.erase lock_id := by
  simp only [execute_lock_swap_internal, Option.bind_eq_bind] at h
  cases hrm : s.virtual_state.remove_lock lock_id sender with
  | none => rw [hrm] at h; simp at h
  | some pr =>
  obtain ⟨vs', lock⟩ := pr
  rw [hrm, Option.some_bind] at h
  obtain ⟨-, -, hlocks, -⟩ := remove_lock_eq_some _ _ _ _ _ hrm
  cases hm1 : TokenBalances.move_tokens
      ({ s with virtual_state := vs' } : LiquiditySwapContractState).token_balances
      lock.owner s.liquidity_pool_address lock.tokens_in_out.token_in
      lock.amount_in with
  | none => rw [hm1] at h; simp at h
  | some tb1 =>
  rw [hm1, Option.some_bind] at h
  cases hm2 : tb1.move_tokens s.liquidity_pool_address lock.owner
      lock.tokens_in_out.token_out lock.amount_out with
  | none => rw [hm2] at h; simp at h
  | some tb2 =>
  rw [hm2, Option.some_bind, Option.some_inj, Prod.mk.injEq] at h
  obtain ⟨hs2, -⟩ := h
  rw [← hs2]
  exact hlocks

/-- Shape of a successful add_lock: the returned id is the pre-state's next
id and the lock table gains exactly that binding. -/
theorem add_lock_eq_some_shape (vs : VirtualState) (lock : LiquidityLock)
    (vs1 : VirtualState) (id : Nat) (h : vs.add_lock lock = some (vs1, id)) :
    id = vs.next_lock_id ∧
    vs1.locks = vs.locks.insert vs.next_lock_id lock := by
  simp only [VirtualState.add_lock, Option.bind_eq_bind] at h
  cases hnext : addU128 vs.next_lock_id 1 with
  | none => rw [hnext] at h; simp at h
  | some next =>
  rw [hnext, Option.some_bind] at h
  cases hdin : addI128 (vs.lock_liquidity.get_amount_of lock.tokens_in_out.token_in)
      (u128AsI128 lock.amount_in) with
  | none => rw [hdin] at h; simp at h
  | some d_in =>
  rw [hdin, Option.some_bind] at h
  cases hdout : subI128 ((vs.lock_liquidity.set_amount_of lock.tokens_in_out.token_in
      d_in).get_amount_of lock.tokens_in_out.token_out)
      (u128AsI128 lock.amount_out) with
  | none => rw [hdout] at h; simp at h
  | some d_out =>
  rw [hdout, Option.some_bind, Option.some_inj, Prod.mk.injEq] at h
  obtain ⟨hvs1, hid⟩ := h
  exact ⟨hid.symm, by rw [← hvs1]⟩

/-- Shape of a successful lock_internal: the returned id is the pre-state's
next lock id, the lock table gains one binding at it, and everything outside
the virtual state is untouched. -/
theorem lock_internal_eq_some_shape (s : LiquiditySwapContractState)
    (amount_in : Nat) (token_in : Address) (aomin : Nat) (sender : Address)
    (s1 : LiquiditySwapContractState) (id out : Nat)
    (h : lock_internal s amount_in token_in aomin sender = some (s1, id, out)) :
    id = s.virtual_state.next_lock_id ∧
    ∃ lock : LiquidityLock,
      s1.virtual_state.locks = s.virtual_state.locks.insert
        s.virtual_state.next_lock_id lock := by
  simp only [lock_internal, Option.bind_eq_bind] at h
  cases htok : s.token_balances.deduce_tokens_in_out token_in with
  | none => rw [htok] at h; simp at h
  | some tio =>
  rw [htok, Option.some_bind] at h
  cases hmin : calculate_minimum_swap_to_amount s amount_in tio with
  | none => rw [hmin] at h; simp at h
  | some q =>
  rw [hmin, Option.some_bind] at h
  split at h
  · simp at h
  · rw [Option.some_bind] at h
    cases hadd : s.virtual_state.add_lock ⟨amount_in, q, tio, sender⟩ with
    | none => rw [hadd] at h; simp at h
    | some pr =>
    obtain ⟨vs', lock_id⟩ := pr
    rw [hadd, Option.some_bind, Option.some_inj, Prod.mk.injEq,
      Prod.mk.injEq] at h
    obtain ⟨hs1, hid, -⟩ := h
    obtain ⟨hid', hins⟩ := add_lock_eq_some_shape _ _ _ _ hadd
    exact ⟨by rw [← hid, hid'], ⟨amount_in, q, tio, sender⟩, by rw [← hs1]; exact hins⟩

/-- Claim C6 counterexample: instant_swap performs no permission check, so for
a caller outside the lock permission the two sides differ — instant_swap
succeeds while acquire_swap_lock aborts. -/
def exStateNoPermission : LiquiditySwapContractState :=
  ⟨Permission.Specific [], 0, 3, exTBFull, VirtualState.new⟩

set_option maxRecDepth 8000 in
/-- Claim C6 counterexample theorem: with the lock permission granted to
nobody, caller 10 can instant_swap 10 A tokens (the call returns a state),
while acquire_swap_lock with the very same arguments aborts — so the claimed
equivalence fails for callers without the permission. -/
theorem instant_swap_without_permission_differs :
    (instant_swap 10 exStateNoPermission 1 10 0).isSome = true ∧
    acquire_swap_lock 10 exStateNoPermission 1 10 0 = none := by
  exact ⟨by rfl, by rfl⟩

/-- Claim C6 amended: for callers admitted by the lock permission gate,
instant_swap coincides exactly with acquire_swap_lock followed by
execute_lock_swap on the returned lock id; moreover (at a fresh next lock id)
the lock created inside a successful instant_swap never survives it: the
final lock table equals the initial one. -/
theorem instant_swap_equals_acquire_then_execute
    (sender : Address) (s : LiquiditySwapContractState) (token_in : Address)
    (amount_in aomin : Nat)
    (hperm : s.permission_lock_swap.does_address_have_permission sender = true) :
    (instant_swap sender s token_in amount_in aomin =
      (acquire_swap_lock sender s token_in amount_in aomin).bind
        (fun r => (execute_lock_swap sender r.1 r.2.1).map Prod.fst)) ∧
    (s.virtual_state.locks.lookup s.virtual_state.next_lock_id = none →
      ∀ s2, instant_swap sender s token_in amount_in aomin = some s2 →
        s2.virtual_state.locks = s.virtual_state.locks) := by
  constructor
  · rw [instant_swap, acquire_swap_lock, if_pos hperm]
    by_cases hliq : s.contract_pools_have_liquidity = true
    · simp only [hliq, if_true]
      cases hl : lock_internal s amount_in token_in aomin sender with
      | none => simp
      | some r =>
        obtain ⟨s1, id, out⟩ := r
        simp only [Option.some_bind, execute_lock_swap]
        cases he : execute_lock_swap_internal s1 id sender with
        | none => simp [he]
        | some q =>
          obtain ⟨s2, amt⟩ := q
          simp [he]
    · simp only [Bool.not_eq_true] at hliq
      simp [hliq]
  · intro hfresh s2 hinst
    rw [instant_swap] at hinst
    split at hinst
    case isFalse => simp at hinst
    case isTrue hliq =>
    simp only [Option.bind_eq_bind] at hinst
    cases hl : lock_internal s amount_in token_in aomin sender with
    | none => rw [hl] at hinst; simp at hinst
    | some r =>
    obtain ⟨s1, id, out⟩ := r
    rw [hl, Option.some_bind] at hinst
    cases he : execute_lock_swap_internal s1 id sender with
    | none => rw [he] at hinst; simp at hinst
    | some q =>
    obtain ⟨s2h, amt⟩ := q
    rw [he, Option.some_bind, Option.some_inj] at hinst
    obtain ⟨hid, lock, hins⟩ := lock_internal_eq_some_shape _ _ _ _ _ _ _ _ hl
    have herased := execute_internal_erases_lock _ _ _ _ _ he
    rw [← hinst, herased, hins, hid, Fmap.erase_insert_self,
      Fmap.erase_eq_self_of_lookup_none _ _ hfresh]

set_option maxRecDepth 8000 in
/-- Witness for the amended claim C6: on the lock-free example state with the
Anybody permission, instant_swap of 10 A tokens equals acquire then execute,
and leaves the lock table unchanged. -/
theorem instant_swap_equals_acquire_then_execute_witness :
    instant_swap 10 exStateUnlocked 1 10 0 =
      (acquire_swap_lock 10 exStateUnlocked 1 10 0).bind
        (fun r => (execute_lock_swap 10 r.1 r.2.1).map Prod.fst) :=
  (instant_swap_equals_acquire_then_execute 10 exStateUnlocked 1 10 0 rfl).1

end PartisiaSwap
